import Mathlib

/-!
Verification of the NVTabular preprocessing core against its specification.

The definitions below are shallow embeddings of the Python sources:
  * `nv_tabular/ds_iterator.py` — `Shuffler` (shuffled shard writer),
    `_allowable_batch_size`, `PQFileReader.intialize_reader`,
    `CSVFileReader.intialize_reader`;
  * `nv_tabular/ops.py` — the statistics accumulators `MinMax`, `Moments`,
    `Median`, `Encoder`;
  * `nv_tabular/preproc.py` — `Workflow.config_add_ops`,
    `Workflow.build_tasks`, `Workflow.is_repeat_op`, `Workflow.phase_creator`,
    `Workflow.find_parents`.

Python machine-level details are modelled explicitly: raised exceptions
(`ZeroDivisionError`, `ValueError`, `IndexError`) become `Option`/`none`,
Python `int()` truncation becomes an explicit truncation on `ℚ`, and Python
`list.pop()` (which removes the LAST element) is modelled as popping from
the tail of a `List`.
-/

/-! ## Shuffler (`nv_tabular/ds_iterator.py`, class `Shuffler`)

`Shuffler.add_data` slices an incoming chunk of `len` rows into pieces and
appends each piece to one of `num_out_files` buckets:

    int_slice_size = gdf.shape[0] // num_out_files
    slice_size = int_slice_size if gdf.shape[0] % int_slice_size == 0
                 else int_slice_size + 1
    for x in range(num_out_files):
        start = x * slice_size
        end = start + slice_size
        end = end if end <= gdf.shape[0] else gdf.shape[0]
        to_write = gdf.iloc[cp.arange(start, end)]
        ... buckets[b_idx].append(to_write.to_arrow())

The per-chunk permutation of `b_idxs` is a bijection on bucket indices, so
the multiset of piece sizes enqueued is independent of it and we model the
slicing only.  `gdf.shape[0] % int_slice_size` raises `ZeroDivisionError`
when `int_slice_size = 0`; that is modelled as `none`. -/

/-- Model of the `slice_size` computation in `Shuffler.add_data`.
`none` models the `ZeroDivisionError` raised when
`int_slice_size = len / n = 0` (this also covers `n = 0`, where the Python
floor division itself raises). -/
def Shuffler.sliceSize (len n : ℕ) : Option ℕ :=
  let intSliceSize := len / n
  if intSliceSize = 0 then none
  else if len % intSliceSize = 0 then some intSliceSize
  else some (intSliceSize + 1)

/-- Model of the piece row-counts enqueued by one `Shuffler.add_data` call on
a chunk of `len` rows with `n` output files: piece `x` holds the rows of
`gdf.iloc[cp.arange(x*slice_size, min(x*slice_size + slice_size, len))]`
(an empty range when the start offset is already past the end). -/
def Shuffler.addDataPieces (len n : ℕ) : Option (List ℕ) :=
  (Shuffler.sliceSize len n).map fun s =>
    (List.range n).map fun x => min (x * s + s) len - min (x * s) len

/-- Total number of rows enqueued across all buckets by one `add_data` call. -/
def Shuffler.totalEnqueued (len n : ℕ) : Option ℕ :=
  (Shuffler.addDataPieces len n).map List.sum

/-! In `Shuffler._start_file_writers` the writer task takes pieces off its
bucket with `self.buckets[idx].pop()`.  Python `list.pop()` with no argument
removes and returns the LAST element, while the producer
(`Shuffler.add_data`) appends at the end with `list.append`. -/

/-- Model of `self.buckets[idx].append(piece)` in `Shuffler.add_data`. -/
def Shuffler.bucketAppend {α : Type} (bucket : List α) (p : α) : List α :=
  bucket ++ [p]

/-- Model of `dt = self.buckets[idx].pop()` in `Shuffler._start_file_writers`:
Python `list.pop()` removes and returns the last element (`none` when the
bucket is empty, where Python would raise `IndexError`). -/
def Shuffler.bucketPop {α : Type} (bucket : List α) : Option (α × List α) :=
  match bucket.getLast? with
  | none => none
  | some x => some (x, bucket.dropLast)

/-- Auxiliary loop for draining a bucket: repeatedly `pop()` until the bucket
is empty, collecting the pieces in write order.  The fuel argument only makes
the recursion structural; `Shuffler.drainWrites` supplies enough fuel for the
whole bucket. -/
def Shuffler.drainWritesAux {α : Type} : ℕ → List α → List α
  | 0, _ => []
  | fuel + 1, bucket =>
    match Shuffler.bucketPop bucket with
    | none => []
    | some (x, rest) => x :: Shuffler.drainWritesAux fuel rest

/-- The sequence of pieces written by a writer task that drains a bucket with
repeated `pop()` calls, with no concurrent appends. -/
def Shuffler.drainWrites {α : Type} (bucket : List α) : List α :=
  Shuffler.drainWritesAux bucket.length bucket

/-! ## MinMax ingest (`nv_tabular/ops.py`, `MinMax.apply_op`)

For each targeted column the source computes

    col_min = min(gdf[col].dropna())
    col_max = max(gdf[col].dropna())
    ...
    self.batch_mins[col].append(col_min)
    self.batch_maxs[col].append(col_max)

Python `min()` / `max()` of an empty sequence raises `ValueError`, modelled
as `none`.  A column is a list of optional values; `dropna` keeps the
present ones. -/

/-- Model of `MinMax.apply_op` restricted to one column: appends the
(min, max) over non-missing values to the per-chunk record lists, or fails
(`none`, the `ValueError` of `min()` on an empty sequence) when the column
has no non-missing value. -/
def MinMax.applyOpCol (vals : List (Option ℚ)) (batchMins batchMaxs : List ℚ) :
    Option (List ℚ × List ℚ) :=
  let nonMissing := vals.filterMap id
  match nonMissing.min?, nonMissing.max? with
  | some mn, some mx => some (batchMins ++ [mn], batchMaxs ++ [mx])
  | _, _ => none

/-! ## Moments (`nv_tabular/ops.py`, class `Moments`)

One `apply_op` step for a single column, given the chunk row count `n2`,
chunk mean `m2` and chunk variance `v2` supplied by the column engine:

    self.counts[col] += n2
    self.means[col] = (m1 * n1 + m2 * n2) / self.counts[col]
    t1 = n1 * v1
    t2 = n2 * v2
    t3 = n1 * ((m1 - self.means[col]) ** 2)
    t4 = n2 * ((m2 - self.means[col]) ** 2)
    t5 = n1 + n2
    self.varis[col] = (t1 + t2 + t3 + t4) / t5
-/

/-- Per-column running state of the `Moments` accumulator. -/
structure MomentsCol where
  count : ℚ
  mean : ℚ
  var : ℚ
  deriving DecidableEq, Repr

/-- Model of one per-column update step of `Moments.apply_op`: the exact
arithmetic performed by the Python source on the running
(count, mean, variance) state. -/
def Moments.applyOpCol (s : MomentsCol) (n2 m2 v2 : ℚ) : MomentsCol :=
  let n1 := s.count
  let v1 := s.var
  let m1 := s.mean
  let count := n1 + n2
  let mean := (m1 * n1 + m2 * n2) / count
  let t1 := n1 * v1
  let t2 := n2 * v2
  let t3 := n1 * ((m1 - mean) ^ 2)
  let t4 := n2 * ((m2 - mean) ^ 2)
  let t5 := n1 + n2
  { count := count, mean := mean, var := (t1 + t2 + t3 + t4) / t5 }

/-! ## Finalize idempotence (`nv_tabular/ops.py`, `read_fin` methods)

Full accumulator states are modelled with one field per Python instance
dict, as total maps from column name to per-column state; a column the
Python dict has never seen corresponds to the default (`[]` / `none`).

`MinMax.read_fin` re-assigns `batch_mins[col]`/`batch_maxs[col]` through a
`cudf.Series(...).tolist()` round-trip (identity on the stored values) and
sets `mins[col] = min(batch_mins[col])`, `maxs[col] = max(batch_maxs[col])`.
`Moments.read_fin` sets `stds[col] = sqrt(varis[col])`; the square root
itself is external numerics, taken here as an arbitrary function parameter.
`Median.read_fin` sorts `batch_medians[col]` in place and indexes the
middle element.  `Encoder.read_fin` sets
`categories[name] = cats.shape[0] + cat_exp_count` from the unchanged
encoder. -/

/-- Running and published state of the `MinMax` accumulator. -/
structure MinMaxState where
  batchMins : String → List ℚ
  batchMaxs : String → List ℚ
  mins : String → Option ℚ
  maxs : String → Option ℚ

/-- Model of `MinMax.read_fin`. -/
def MinMax.readFin (s : MinMaxState) : MinMaxState where
  batchMins := s.batchMins
  batchMaxs := s.batchMaxs
  mins := fun c => (s.batchMins c).min?
  maxs := fun c => (s.batchMaxs c).max?

/-- Running and published state of the `Moments` accumulator. -/
structure MomentsState where
  counts : String → ℚ
  means : String → ℚ
  varis : String → ℚ
  stds : String → ℚ

/-- Model of `Moments.read_fin`; `sqrt` stands for the external
`np.sqrt`. -/
def Moments.readFin (sqrt : ℚ → ℚ) (s : MomentsState) : MomentsState where
  counts := s.counts
  means := s.means
  varis := s.varis
  stds := fun c => sqrt (s.varis c)

/-- Running and published state of the `Median` accumulator. -/
@[ext]
structure MedianState where
  batchMedians : String → List ℚ
  medians : String → Option ℚ

/-- Model of `Median.read_fin`: sorts each per-chunk median list in place
and publishes the middle element (`none` models the `IndexError` on an
empty list, which matches a column the Python dict does not hold). -/
def Median.readFin (s : MedianState) : MedianState where
  batchMedians := fun c => (s.batchMedians c).insertionSort (· ≤ ·)
  medians := fun c =>
    let sorted := (s.batchMedians c).insertionSort (· ≤ ·)
    sorted[sorted.length / 2]?

/-- Running and published state of the `Encoder` accumulator: per column,
the pair (`_cats.shape[0]`, `cat_exp_count`) of the fitted label encoder,
and the published category count. -/
structure EncoderState where
  encoders : String → Option (ℕ × ℕ)
  categories : String → Option ℕ

/-- Model of `Encoder.read_fin` with `cat_read_all_files` inlined:
`categories[name] = cats.shape[0] + cat_exp_count`. -/
def Encoder.readFin (s : EncoderState) : EncoderState where
  encoders := s.encoders
  categories := fun c => (s.encoders c).map fun e => e.1 + e.2

/-! ## Chunk sizing (`nv_tabular/ds_iterator.py`)

    def _allowable_batch_size(gpu_memory_frac, row_size):
        free_mem, _ = numba.cuda.current_context().get_memory_info()
        gpu_memory = free_mem * gpu_memory_frac
        return max(int(gpu_memory / row_size), 1)

and, in both `PQFileReader.intialize_reader` and
`CSVFileReader.intialize_reader`, when no explicit `batch_size` is given:

        gpu_memory_batch = _allowable_batch_size(gpu_memory_frac, self.row_size)
        self.batch_size = min(gpu_memory_batch, self.num_rows)
-/

/-- Python `int()` applied to a rational: truncation toward zero. -/
def pyInt (q : ℚ) : ℤ :=
  if q < 0 then -⌊-q⌋ else ⌊q⌋

/-- Model of `_allowable_batch_size`: `free_mem` is the reported free GPU
memory (the budget), multiplied by the fraction and divided by the
estimated row size. -/
def allowable_batch_size (freeMem : ℕ) (gpuMemoryFrac rowSize : ℚ) : ℤ :=
  max (pyInt ((freeMem : ℚ) * gpuMemoryFrac / rowSize)) 1

/-- Model of the `PQFileReader.intialize_reader` batch size when no explicit
`batch_size` is supplied. -/
def PQFileReader.defaultBatchSize (freeMem : ℕ) (frac rowSize : ℚ)
    (numRows : ℤ) : ℤ :=
  min (allowable_batch_size freeMem frac rowSize) numRows

/-- Model of the `CSVFileReader.intialize_reader` batch size when no
explicit `batch_size` is supplied. -/
def CSVFileReader.defaultBatchSize (freeMem : ℕ) (frac rowSize : ℚ)
    (numRows : ℤ) : ℤ :=
  min (allowable_batch_size freeMem frac rowSize) numRows

/-- The spec's sizing formula, stated in its own words: rows-per-chunk =
floor(budget × fraction / bytes-per-row), clamped below to 1 and above to
the total row count. -/
def specRowsPerChunk (budget : ℕ) (fraction rowSize : ℚ) (numRows : ℤ) : ℤ :=
  min (max ⌊(budget : ℚ) * fraction / rowSize⌋ 1) numRows

/-! ## Workflow configuration (`nv_tabular/preproc.py`)

Python `in` on strings is substring containment; it is used by
`Workflow.find_parents` (`op._id in task[0]._id`), `Workflow.is_repeat_op`
(`op._id in task_d[0]._id`) and `Workflow.build_tasks`
(`task_set in "PP"`).  We model it character-wise on `String`. -/

/-- Whether `needle` is an initial segment of `hay` (character lists). -/
def listPfxCheck : List Char → List Char → Bool
  | [], _ => true
  | _ :: _, [] => false
  | a :: as, b :: bs => a == b && listPfxCheck as bs

/-- Auxiliary scan for `strContains`. -/
def strContainsAux (needle : List Char) : List Char → Bool
  | [] => listPfxCheck needle []
  | c :: cs => listPfxCheck needle (c :: cs) || strContainsAux needle cs

/-- Python `needle in hay` on strings: substring containment. -/
def strContains (needle hay : String) : Bool :=
  strContainsAux needle.toList hay.toList

/-! ### `Workflow.config_add_ops`

    def config_add_ops(self, operators, phase):
        target_cols = self.get_tar_cols(operators)
        if phase in self.config and target_cols in self.config[phase]:
            self.config[phase][target_cols].append(operators)
            return
        warnings.warn(f"No main key {phase} or sub key {target_cols} ...")

`get_tar_cols` takes the `default_in` column group of the first operator of
the (possibly chained) operator list. -/

/-- An operator as seen by `config_add_ops`: its identifier and its
`default_in` column group. -/
structure OpDecl where
  id : String
  defaultIn : String
  deriving DecidableEq, Repr

/-- The nested configuration structure `{phase: {column-group: [op-spec]}}`,
an op-spec being a chain (list) of operators. -/
abbrev WorkflowConfig := List (String × List (String × List (List OpDecl)))

instance : DecidableEq (String × List (String × List (List OpDecl))) :=
  inferInstance

instance : DecidableEq WorkflowConfig :=
  inferInstance

/-- Model of `Workflow.get_tar_cols`: the `default_in` group of the first
operator (`none` models the `IndexError` on an empty list). -/
def Workflow.getTarCols (operators : List OpDecl) : Option String :=
  operators.head?.map fun o => o.defaultIn

/-- Model of the Python test
`phase in self.config and target_cols in self.config[phase]`. -/
def Workflow.keyPresent (config : WorkflowConfig) (phase target : String) :
    Bool :=
  match List.lookup phase config with
  | some subs => (List.lookup target subs).isSome
  | none => false

/-- Appends an operator chain under `config[phase][target]`. -/
def Workflow.configAppend (config : WorkflowConfig) (phase target : String)
    (operators : List OpDecl) : WorkflowConfig :=
  config.map fun e =>
    if e.1 == phase then
      (e.1, e.2.map fun s =>
        if s.1 == target then (s.1, s.2 ++ [operators]) else s)
    else e

/-- Model of `Workflow.config_add_ops`.  The boolean records whether the
call fell through to `warnings.warn` (the operator was then NOT added);
`none` models the `IndexError` of `get_tar_cols` on an empty operator
list.  Note no exception is raised on a missing key: `warnings.warn` simply
returns. -/
def Workflow.configAddOps (config : WorkflowConfig) (operators : List OpDecl)
    (phase : String) : Option (WorkflowConfig × Bool) :=
  (Workflow.getTarCols operators).map fun target =>
    if Workflow.keyPresent config phase target then
      (Workflow.configAppend config phase target operators, false)
    else (config, true)

/-- The behaviour claim C8 describes, in the spec's words: adding an
operator whose phase key or target column-group is undeclared raises a
configuration error at schedule-build time. -/
def Workflow.specConfigAddOps (config : WorkflowConfig)
    (operators : List OpDecl) (phase : String) :
    Except String WorkflowConfig :=
  match Workflow.getTarCols operators with
  | none => Except.error "empty operator list"
  | some target =>
    if Workflow.keyPresent config phase target then
      Except.ok (Workflow.configAppend config phase target operators)
    else Except.error "undeclared phase key or column-group"

/-! ### `Workflow.build_tasks` and `Workflow.is_repeat_op`

Task format in the source: `(operator, main_columns_class, col_sub_key,
required_operators)`.  Operators are identified by `_id` (the class name);
`is_repeat_op` tests `op._id in task_d[0]._id and cols == task_d[1]`
against `self.master_task_list` — the list as it stood BEFORE the current
`build_tasks` call, because `load_config` extends `master_task_list` only
after `build_tasks` returns. -/

/-- A scheduled operator task: `(op id, column group, dependency column
ids, parent op ids)`. -/
structure WTask where
  opId : String
  cols : String
  deps : List String
  parents : List String
  deriving DecidableEq, Repr

/-- What `build_tasks` needs to know about the operator instantiated from
`all_ops[op_id](**ops_args[op_id])`: its required statistic op ids and
whether the `req_stats` attribute exists at all (`hasattr`). -/
structure OpInfo where
  reqStats : List String
  hasReqStats : Bool
  deriving DecidableEq, Repr

/-- Model of `Workflow.is_repeat_op`: Python substring test on the op id
and equality on the column group, over the master task list. -/
def Workflow.isRepeatOp (master : List WTask) (opId cols : String) : Bool :=
  master.any fun t => strContains opId t.opId && cols == t.cols

/-- Model of the dependency-pruning loop in `Workflow.build_tasks`

    for dep in dep_grp:
        if task_set in "PP" and not self.op_preprocess(dep):
            dep_grp.remove(dep)

including CPython's behaviour of removing from the list being iterated:
the iterator index `i` advances once per step while `remove` shifts later
elements left (so the element after a removed one is skipped).  `pre d` is
`op_preprocess(d)` (the registered operator's `preprocessing` attribute,
`True` when absent or unregistered).  The fuel argument only bounds the
loop; `i` reaches the shrinking length within `l.length` steps. -/
def Workflow.pyFilterDepsAux (isPP : Bool) (pre : String → Bool) :
    ℕ → List String → ℕ → List String
  | 0, l, _ => l
  | fuel + 1, l, i =>
    if h : i < l.length then
      let d := l.get ⟨i, h⟩
      let l2 := if isPP && !(pre d) then l.erase d else l
      Workflow.pyFilterDepsAux isPP pre fuel l2 (i + 1)
    else l

/-- The dependency-pruning loop of `build_tasks`, run to completion. -/
def Workflow.pyFilterDeps (isPP : Bool) (pre : String → Bool)
    (l : List String) : List String :=
  Workflow.pyFilterDepsAux isPP pre l.length l 0

/-- Model of the body of `Workflow.build_tasks` for one `dep_grp` of one
`op_id`: prune deps (PP only), inject one statistic task per required
statistic not already in the master list, then append the target task
itself unless it is already in the master list.  An empty (pruned)
dependency group is replaced by `["base"]` before any task is recorded. -/
def Workflow.buildTasksDepGrp (registry : String → OpInfo)
    (pre : String → Bool) (master : List WTask) (isPP : Bool)
    (opId cols : String) (depGrp : List String) : List WTask :=
  let info := registry opId
  let depGrp2 := Workflow.pyFilterDeps isPP pre depGrp
  let depGrp3 := if depGrp2.isEmpty then ["base"] else depGrp2
  let statTasks :=
    if info.hasReqStats then
      (info.reqStats.filter fun opo =>
          !(Workflow.isRepeatOp master opo cols)).map
        fun opo => WTask.mk opo cols depGrp3 []
    else []
  let parents := if info.hasReqStats then info.reqStats else []
  statTasks ++
    (if Workflow.isRepeatOp master opId cols then []
     else [WTask.mk opId cols depGrp3 parents])

/-- The task dictionary of one task set:
`{column-group: [{op_id: dep_set}, ...]}`. -/
abbrev TaskDict := List (String × List (String × List (List String)))

/-- Model of `Workflow.build_tasks(task_dict, task_set)`.  `master` is
`self.master_task_list` as it stands when the call starts; the tasks
accumulated in `dep_tasks` are NOT consulted by `is_repeat_op`.  An empty
`dep_set` contributes nothing (`if dep_set:` fails). -/
def Workflow.buildTasks (registry : String → OpInfo) (pre : String → Bool)
    (taskDict : TaskDict) (taskSet : String) (master : List WTask) :
    List WTask :=
  let isPP := strContains taskSet "PP"
  taskDict.flatMap fun colsEntry =>
    colsEntry.2.flatMap fun opEntry =>
      opEntry.2.flatMap fun depGrp =>
        Workflow.buildTasksDepGrp registry pre master isPP
          opEntry.1 colsEntry.1 depGrp

/-- Model of the master-task-list construction in `Workflow.load_config`:

    for task_set in config.keys():
        self.task_sets[task_set] = self.build_tasks(config[task_set], task_set)
        self.master_task_list = self.master_task_list + self.task_sets[task_set]
-/
def Workflow.loadConfigMaster (registry : String → OpInfo)
    (pre : String → Bool) (config : List (String × TaskDict)) : List WTask :=
  config.foldl
    (fun master entry =>
      master ++ Workflow.buildTasks registry pre entry.2 entry.1 master)
    []

/-- Registry for the C3 failing input: `ZeroFill` is a plain
`TransformOperator` with no `req_stats` attribute. -/
def c3Registry : String → OpInfo := fun _ => OpInfo.mk [] false

/-- All operators report `preprocessing = True` (irrelevant for FE). -/
def c3Pre : String → Bool := fun _ => true

/-- The C3 failing configuration: the same operator declared twice for the
same column group within the single task set `FE`, as produced by
`compile_dict_from_list` for `config["FE"]["continuous"] = [ZeroFill,
ZeroFill]`. -/
def c3Config : List (String × TaskDict) :=
  [("FE", [("continuous", [("ZeroFill", [[]]), ("ZeroFill", [[]])])])]

/-! ### `Workflow.phase_creator` and `Workflow.find_parents`

    def phase_creator(self, task_list):
        for task in task_list:
            added = False
            cols_needed = task[2].copy()
            if "base" in cols_needed:
                cols_needed.remove("base")
            for idx, phase in enumerate(self.phases):
                if added:
                    break
                for p_task in phase:
                    if not cols_needed:
                        break
                    if p_task[0]._id in cols_needed:
                        cols_needed.remove(p_task[0]._id)
                if not cols_needed and self.find_parents(task[3], idx):
                    added = True
                    phase.append(task)
            if not added:
                self.phases.append([task])

`cols_needed` is carried ACROSS phases: the removals made while scanning
phase 0..idx all count when the commit test runs at index idx, and phase
idx itself is scanned BEFORE the test.  `find_parents(ops, idx)` scans only
`self.phases[:idx]` and removes a parent from its working copy at every
task whose id contains it as a substring; `list.remove` on an absent
element raises `ValueError`, modelled as `none`. -/

/-- Python `ops_copy.remove(op)`: removes the first occurrence, raising
(`none`) when absent. -/
def Workflow.pyRemove (x : String) (l : List String) : Option (List String) :=
  if l.contains x then some (l.erase x) else none

/-- Inner loop of `find_parents` over the tasks of one phase for one
parent op `op`, threading the working copy `ops_copy` (the leading
`isEmpty` test models the `break`). -/
def Workflow.fpTasks (op : String) :
    List WTask → List String → Option (List String)
  | [], copy => some copy
  | t :: ts, copy =>
    if copy.isEmpty then some copy
    else if strContains op t.opId then
      match Workflow.pyRemove op copy with
      | some copy2 => Workflow.fpTasks op ts copy2
      | none => none
    else Workflow.fpTasks op ts copy

/-- Middle loop of `find_parents` over the phase prefix for one parent. -/
def Workflow.fpPhases (op : String) :
    List (List WTask) → List String → Option (List String)
  | [], copy => some copy
  | ph :: phs, copy =>
    if copy.isEmpty then some copy
    else
      match Workflow.fpTasks op ph copy with
      | some copy2 => Workflow.fpPhases op phs copy2
      | none => none

/-- Outer loop of `find_parents` over all parents in `ops_list`. -/
def Workflow.fpOps (phasesPfx : List (List WTask)) :
    List String → List String → Option (List String)
  | [], copy => some copy
  | op :: ops, copy =>
    match Workflow.fpPhases op phasesPfx copy with
    | some copy2 => Workflow.fpOps phasesPfx ops copy2
    | none => none

/-- Model of `Workflow.find_parents(ops_list, phase_idx)`: Python returns
`True` when the working copy empties and `None` (falsy) otherwise; `none`
models the `ValueError` of a failing `remove`. -/
def Workflow.findParents (phases : List (List WTask)) (opsList : List String)
    (phaseIdx : ℕ) : Option Bool :=
  (Workflow.fpOps (phases.take phaseIdx) opsList opsList).map List.isEmpty

/-- One phase scan of `phase_creator`: for each task of the phase in order,
remove its op id from `cols_needed` when present. -/
def Workflow.scanPhaseCols (phase : List WTask) (colsNeeded : List String) :
    List String :=
  phase.foldl
    (fun cols t => if cols.contains t.opId then cols.erase t.opId else cols)
    colsNeeded

/-- The phase loop of `phase_creator` for one task: `done` holds the phases
already scanned, the third argument the remaining phases, the fourth the
current `cols_needed`.  On commit the task is appended to the current
phase; when no phase qualifies a new trailing phase is appended. -/
def Workflow.placeTaskAux (task : WTask) :
    List (List WTask) → List (List WTask) → List String →
      Option (List (List WTask))
  | done, [], _ => some (done ++ [[task]])
  | done, ph :: rest, cols =>
    let cols2 := Workflow.scanPhaseCols ph cols
    if cols2.isEmpty then
      match Workflow.findParents (done ++ ph :: rest) task.parents
          done.length with
      | none => none
      | some true => some (done ++ (ph ++ [task]) :: rest)
      | some false => Workflow.placeTaskAux task (done ++ [ph]) rest cols2
    else Workflow.placeTaskAux task (done ++ [ph]) rest cols2

/-- Processing of one task by `phase_creator` against the current phase
list. -/
def Workflow.placeTask (phases : List (List WTask)) (task : WTask) :
    Option (List (List WTask)) :=
  let colsNeeded :=
    if task.deps.contains "base" then task.deps.erase "base" else task.deps
  Workflow.placeTaskAux task [] phases colsNeeded

/-- Model of `Workflow.phase_creator(task_list)`: fold `placeTask` over the
dependent tasks in declaration order. -/
def Workflow.phaseCreator (phases : List (List WTask))
    (tasks : List WTask) : Option (List (List WTask)) :=
  tasks.foldlM Workflow.placeTask phases

/-- The claim's qualifying test for column dependencies, in the spec's
words: every named (non-"base") dependency was produced by some task among
`pfxTasks`. -/
def Workflow.specDepsProduced (pfxTasks : List WTask)
    (deps : List String) : Bool :=
  deps.all fun d => d == "base" || pfxTasks.any fun t => t.opId == d

/-- The claim's qualifying test for parents: every declared parent operator
appears (as an id substring, as in `find_parents`) among `pfxTasks`. -/
def Workflow.specParentsAppear (pfxTasks : List WTask)
    (parents : List String) : Bool :=
  parents.all fun p => pfxTasks.any fun t => strContains p t.opId

/-- Placement as claim C2 words it: commit to the first phase index `idx`
such that all named column dependencies were produced in the STRICTLY
earlier phases `[0, idx)` and all parents appear in `[0, idx)`; append a
new trailing phase when no index qualifies. -/
def Workflow.specPlaceClaimAux (task : WTask) :
    List (List WTask) → List (List WTask) → List (List WTask)
  | done, [] => done ++ [[task]]
  | done, ph :: rest =>
    if Workflow.specDepsProduced done.flatten task.deps &&
        Workflow.specParentsAppear done.flatten task.parents then
      done ++ (ph ++ [task]) :: rest
    else Workflow.specPlaceClaimAux task (done ++ [ph]) rest

/-- One-task placement under the claim's reading. -/
def Workflow.specPlaceClaim (phases : List (List WTask)) (task : WTask) :
    List (List WTask) :=
  Workflow.specPlaceClaimAux task [] phases

/-- Placement as the code actually behaves (the amended claim): commit to
the first phase index `idx` such that all named column dependencies were
produced in phases `[0, idx]` — INCLUDING phase `idx` itself — and all
parents appear in the strictly earlier phases `[0, idx)`. -/
def Workflow.specPlaceAmendedAux (task : WTask) :
    List (List WTask) → List (List WTask) → List (List WTask)
  | done, [] => done ++ [[task]]
  | done, ph :: rest =>
    if Workflow.specDepsProduced (done.flatten ++ ph) task.deps &&
        Workflow.specParentsAppear done.flatten task.parents then
      done ++ (ph ++ [task]) :: rest
    else Workflow.specPlaceAmendedAux task (done ++ [ph]) rest

/-- One-task placement under the amended reading. -/
def Workflow.specPlaceAmended (phases : List (List WTask)) (task : WTask) :
    List (List WTask) :=
  Workflow.specPlaceAmendedAux task [] phases

/-- The residual `cols_needed` list of `phase_creator` after the phases
whose tasks are `pfxTasks` have been scanned: the dependencies (minus
"base") not yet produced. -/
def Workflow.colsNeededAt (deps : List String) (pfxTasks : List WTask) :
    List String :=
  deps.filter fun d =>
    (!(pfxTasks.any fun t => t.opId == d)) && (d != "base")

/-! ## Theorems -/

theorem Shuffler.drainWritesAux_eq_reverse {α : Type} (fuel : ℕ) (l : List α)
    (h : l.length ≤ fuel) : Shuffler.drainWritesAux fuel l = l.reverse := by
  induction fuel generalizing l with
  | zero =>
    have : l = [] := List.eq_nil_of_length_eq_zero (Nat.le_zero.mp h)
    subst this
    rfl
  | succ fuel ih =>
    induction l using List.reverseRecOn with
    | nil => rfl
    | append_singleton m x _ =>
      have hpop : Shuffler.bucketPop (m ++ [x]) = some (x, m) := by
        simp [Shuffler.bucketPop, List.getLast?_concat, List.dropLast_concat]
      have hlen : m.length ≤ fuel := by
        have := h
        simp only [List.length_append, List.length_singleton] at this
        omega
      simp [Shuffler.drainWritesAux, hpop, ih m hlen, List.reverse_append]

/-- C1: the claim states that every row of every chunk is enqueued into
exactly one bucket for every chunk length, including lengths where
`len / N` divides `len`.  Evaluating the code at the failing input — a
chunk of 6 rows with 4 output files — shows the slice size is computed as
`int_slice_size = 6 // 4 = 1` with `6 % 1 == 0`, so `slice_size = 1`, the
four pieces cover only rows 0–3, and just 4 of the 6 rows are enqueued. -/
theorem shuffler_addData_drops_rows_at_6_4 :
    Shuffler.addDataPieces 6 4 = some [1, 1, 1, 1] ∧
    Shuffler.totalEnqueued 6 4 = some 4 ∧
    Shuffler.totalEnqueued 6 4 ≠ some 6 := by decide

/-- C10: for every non-empty chunk with fewer rows than output files,
`Shuffler.add_data` raises a `ZeroDivisionError` (`int_slice_size = 0` is
used as a modulus divisor) before enqueuing anything; the result is `none`
and no piece list is ever produced. -/
theorem shuffler_addData_underfull_chunk_raises (len n : ℕ)
    (hpos : 0 < len) (hlt : len < n) :
    Shuffler.sliceSize len n = none ∧ Shuffler.totalEnqueued len n = none := by
  have hdiv : len / n = 0 := Nat.div_eq_of_lt hlt
  constructor
  · simp [Shuffler.sliceSize, hdiv]
  · simp [Shuffler.totalEnqueued, Shuffler.addDataPieces, Shuffler.sliceSize, hdiv]

/-- Witness for C10 at a concrete input: a 2-row chunk with 5 output files. -/
theorem shuffler_addData_underfull_chunk_raises_witness :
    0 < 2 ∧ 2 < 5 ∧
      (Shuffler.sliceSize 2 5 = none ∧ Shuffler.totalEnqueued 2 5 = none) :=
  ⟨by decide, by decide,
    shuffler_addData_underfull_chunk_raises 2 5 (by decide) (by decide)⟩

/-- C5 counterexample: the claim states the k-th piece written to a shard's
file is the k-th piece appended to its bucket (FIFO).  With pieces 10 then
20 appended, the writer's `list.pop()` takes the LAST element first, so the
write order is [20, 10], not [10, 20]. -/
theorem shuffler_bucket_not_fifo :
    Shuffler.bucketAppend (Shuffler.bucketAppend ([] : List ℕ) 10) 20 =
        [10, 20] ∧
    Shuffler.drainWrites [10, 20] = [20, 10] ∧
    Shuffler.drainWrites [10, 20] ≠ [10, 20] := by decide

/-- C5 amended: within one shard, each dequeue removes the most recently
appended piece (`list.pop()` pops the tail), so a writer draining a bucket
with no concurrent appends writes the pieces in reverse arrival order
(LIFO), the k-th piece written being the (n+1-k)-th appended of n. -/
theorem shuffler_drain_is_lifo {α : Type} (bucket : List α) :
    Shuffler.drainWrites bucket = bucket.reverse :=
  Shuffler.drainWritesAux_eq_reverse bucket.length bucket (Nat.le_refl _)

/-- C7 counterexample: the claim states that ingesting a chunk whose
targeted column has no non-missing values completes normally and appends no
entry; on the code, `min()` of the empty dropna result raises `ValueError`
(modelled `none`) instead of returning the state unchanged. -/
theorem minmax_applyOp_all_missing_not_normal :
    MinMax.applyOpCol [none, none] [] [] = none ∧
    MinMax.applyOpCol [none, none] [] [] ≠ some ([], []) := by decide

/-- C7 amended: when MinMax ingests a chunk in which a targeted column has
no non-missing values, the ingest raises an error (`min()` of an empty
sequence) and appends no (min, max) entry; finalize therefore only ever
sees entries from chunks with at least one non-missing value because a pass
containing such a chunk aborts. -/
theorem minmax_applyOp_empty_column_errors
    (vals : List (Option ℚ)) (batchMins batchMaxs : List ℚ)
    (h : vals.filterMap id = []) :
    MinMax.applyOpCol vals batchMins batchMaxs = none := by
  simp [MinMax.applyOpCol, h]

/-- Witness for the amended C7 at a concrete input: a single all-missing
column value. -/
theorem minmax_applyOp_empty_column_errors_witness :
    ([none, none] : List (Option ℚ)).filterMap id = [] ∧
      MinMax.applyOpCol [none, none] [] [] = none :=
  ⟨by decide, minmax_applyOp_empty_column_errors [none, none] [] [] (by decide)⟩

/-- C4: for every prior Moments running state (count `n1`, mean `m1`,
variance `v1`) with `n1 ≥ 0` and every ingested chunk with count `n2 > 0`,
chunk mean `m2` and chunk variance `v2`, one ingest step produces count
`n1+n2`, mean `(m1*n1 + m2*n2)/(n1+n2)`, and variance equal (as exact
rational arithmetic) to the parallel-variance combination
`(n1*v1 + n2*v2)/(n1+n2) + (n1*n2/(n1+n2)^2)*(m1-m2)^2`. -/
theorem moments_applyOp_parallel_variance
    (n1 m1 v1 n2 m2 v2 : ℚ) (hn1 : 0 ≤ n1) (hn2 : 0 < n2) :
    Moments.applyOpCol ⟨n1, m1, v1⟩ n2 m2 v2 =
      ⟨n1 + n2,
       (m1 * n1 + m2 * n2) / (n1 + n2),
       (n1 * v1 + n2 * v2) / (n1 + n2) +
         (n1 * n2 / (n1 + n2) ^ 2) * (m1 - m2) ^ 2⟩ := by
  have hsum : n1 + n2 ≠ 0 := by positivity
  unfold Moments.applyOpCol
  simp only [MomentsCol.mk.injEq]
  refine ⟨trivial, trivial, ?_⟩
  field_simp
  ring

/-- Witness for C4 at a concrete input: merging (count 1, mean 0, var 0)
with a chunk (count 1, mean 2, var 0) gives count 2, mean 1, var 1. -/
theorem moments_applyOp_parallel_variance_witness :
    Moments.applyOpCol ⟨1, 0, 0⟩ 1 2 0 = ⟨2, 1, 1⟩ := by
  have h := moments_applyOp_parallel_variance 1 0 0 1 2 0 (by norm_num) (by norm_num)
  rw [h]
  norm_num

theorem insertionSort_rat_idem (l : List ℚ) :
    (l.insertionSort (· ≤ ·)).insertionSort (· ≤ ·) =
      l.insertionSort (· ≤ ·) :=
  (List.sorted_insertionSort (· ≤ ·) l).insertionSort_eq

/-- C6: for every statistics accumulator (MinMax, Moments, Median, Encoder)
and every running state, calling finalize (`read_fin`) a second time with no
intervening ingest leaves the whole state — in particular every published
value (mins/maxs, means/stds/vars/counts, medians, categories) —
unchanged. -/
theorem stat_ops_readFin_idempotent (sqrt : ℚ → ℚ)
    (s1 : MinMaxState) (s2 : MomentsState)
    (s3 : MedianState) (s4 : EncoderState) :
    MinMax.readFin (MinMax.readFin s1) = MinMax.readFin s1 ∧
    Moments.readFin sqrt (Moments.readFin sqrt s2) = Moments.readFin sqrt s2 ∧
    Median.readFin (Median.readFin s3) = Median.readFin s3 ∧
    Encoder.readFin (Encoder.readFin s4) = Encoder.readFin s4 := by
  refine ⟨rfl, rfl, ?_, rfl⟩
  ext c
  · simp [Median.readFin, insertionSort_rat_idem]
  · simp [Median.readFin, insertionSort_rat_idem]

/-- C9: for every memory budget, fraction in (0,1], positive estimated
bytes-per-row and total row count, the rows-per-chunk computed by both file
readers (when no explicit batch size is supplied) equals
floor(budget × fraction / bytes-per-row) clamped below to 1 and above to the
total row count; when the total row count is at least 1 the result indeed
lies in [1, numRows]. -/
theorem reader_batch_size_matches_spec (budget : ℕ) (frac rowSize : ℚ)
    (numRows : ℤ) (hf0 : 0 < frac) (hf1 : frac ≤ 1) (hr : 0 < rowSize) :
    PQFileReader.defaultBatchSize budget frac rowSize numRows =
        specRowsPerChunk budget frac rowSize numRows ∧
    CSVFileReader.defaultBatchSize budget frac rowSize numRows =
        specRowsPerChunk budget frac rowSize numRows ∧
    (1 ≤ numRows →
      1 ≤ specRowsPerChunk budget frac rowSize numRows ∧
        specRowsPerChunk budget frac rowSize numRows ≤ numRows) := by
  have hq : ¬ ((budget : ℚ) * frac / rowSize < 0) := by
    push_neg
    positivity
  have heq : PQFileReader.defaultBatchSize budget frac rowSize numRows =
      specRowsPerChunk budget frac rowSize numRows := by
    simp [PQFileReader.defaultBatchSize, allowable_batch_size, pyInt, hq,
      specRowsPerChunk]
  refine ⟨heq, heq, fun hn => ?_⟩
  unfold specRowsPerChunk
  constructor
  · exact le_min (le_trans (by omega) (le_max_right _ _)) hn
  · exact min_le_right _ _

/-- Witness for C9 at a concrete input: budget 10 bytes, fraction 1/2,
1 byte per row, 3 total rows gives 3 rows per chunk. -/
theorem reader_batch_size_matches_spec_witness :
    (0 : ℚ) < 1 / 2 ∧ (1 / 2 : ℚ) ≤ 1 ∧ (0 : ℚ) < 1 ∧
      PQFileReader.defaultBatchSize 10 (1 / 2) 1 3 =
        specRowsPerChunk 10 (1 / 2) 1 3 :=
  ⟨by norm_num, by norm_num, by norm_num,
    (reader_batch_size_matches_spec 10 (1 / 2) 1 3 (by norm_num) (by norm_num)
      (by norm_num)).1⟩

/-- C8 counterexample: adding an operator whose target column-group
(`categorical`) is not declared under phase `FE` does NOT raise: the code
returns normally with only a warning and leaves the configuration
unchanged, whereas the claimed behaviour is a configuration error. -/
theorem config_add_ops_missing_key_does_not_raise :
    Workflow.configAddOps [("FE", [("continuous", [])])]
        [⟨"Categorify", "categorical"⟩] "FE" =
      some ([("FE", [("continuous", [])])], true) ∧
    (Workflow.specConfigAddOps [("FE", [("continuous", [])])]
        [⟨"Categorify", "categorical"⟩] "FE").isOk = false := by decide

/-- C8 amended: adding an operator whose declared phase key or target
column-group is not present in the configuration structure issues a warning
and silently drops the operator (the configuration is returned unchanged);
no error is raised at schedule-build time. -/
theorem config_add_ops_missing_key_warns (config : WorkflowConfig)
    (operators : List OpDecl) (phase target : String)
    (ht : Workflow.getTarCols operators = some target)
    (hmiss : Workflow.keyPresent config phase target = false) :
    Workflow.configAddOps config operators phase = some (config, true) := by
  simp [Workflow.configAddOps, ht, hmiss]

/-- Witness for the amended C8 at a concrete input. -/
theorem config_add_ops_missing_key_warns_witness :
    Workflow.getTarCols [⟨"Categorify", "categorical"⟩] =
        some "categorical" ∧
    Workflow.keyPresent [("FE", [("continuous", [])])] "FE" "categorical" =
        false ∧
    Workflow.configAddOps [("FE", [("continuous", [])])]
        [⟨"Categorify", "categorical"⟩] "FE" =
      some ([("FE", [("continuous", [])])], true) :=
  ⟨by decide, by decide,
    config_add_ops_missing_key_warns [("FE", [("continuous", [])])]
      [⟨"Categorify", "categorical"⟩] "FE" "categorical"
      (by decide) (by decide)⟩

/-- C3: the claim states the master task list never contains two tasks with
the same (operator id, column-group) pair, including when the same operator
is declared twice for the same column group within one task set.
Evaluating the code at that failing input: `is_repeat_op` consults only
`self.master_task_list`, which is extended after `build_tasks` returns, so
both declarations are appended and the pair (ZeroFill, continuous) appears
twice. -/
theorem build_tasks_duplicate_op_cols_pair :
    Workflow.loadConfigMaster c3Registry c3Pre c3Config =
      [WTask.mk "ZeroFill" "continuous" ["base"] [],
       WTask.mk "ZeroFill" "continuous" ["base"] []] ∧
    ¬ ((Workflow.loadConfigMaster c3Registry c3Pre c3Config).map
        fun t => (t.opId, t.cols)).Nodup := by decide

/-- C2 counterexample: a task `T` whose only column dependency `A` is
produced IN phase 0 (not in a strictly earlier phase) is committed by the
code to phase 0 itself, because `phase_creator` scans phase `idx` before
testing `cols_needed`; under the claim's strict-prefix reading no phase
qualifies and `T` would get a new trailing phase. -/
theorem phase_creator_not_strict_prefix :
    Workflow.phaseCreator [[WTask.mk "A" "g" ["base"] []]]
        [WTask.mk "T" "g" ["A"] []] =
      some [[WTask.mk "A" "g" ["base"] [], WTask.mk "T" "g" ["A"] []]] ∧
    Workflow.specPlaceClaim [[WTask.mk "A" "g" ["base"] []]]
        (WTask.mk "T" "g" ["A"] []) =
      [[WTask.mk "A" "g" ["base"] []], [WTask.mk "T" "g" ["A"] []]] ∧
    Workflow.phaseCreator [[WTask.mk "A" "g" ["base"] []]]
        [WTask.mk "T" "g" ["A"] []] ≠
      some (Workflow.specPlaceClaim [[WTask.mk "A" "g" ["base"] []]]
        (WTask.mk "T" "g" ["A"] [])) := by decide

theorem Workflow.scanPhaseCols_nil (cols : List String) :
    Workflow.scanPhaseCols [] cols = cols := rfl

theorem Workflow.scanPhaseCols_eq_filter (ph : List WTask) :
    ∀ cols : List String, cols.Nodup →
      Workflow.scanPhaseCols ph cols =
        cols.filter fun d => !(ph.any fun t => t.opId == d) := by
  induction ph with
  | nil =>
    intro cols _
    simp [Workflow.scanPhaseCols]
  | cons t ts ih =>
    intro cols hnd
    have hstep : Workflow.scanPhaseCols (t :: ts) cols =
        Workflow.scanPhaseCols ts
          (if cols.contains t.opId then cols.erase t.opId else cols) := rfl
    have hcols' : (if cols.contains t.opId then cols.erase t.opId else cols) =
        cols.filter fun d => d != t.opId := by
      by_cases hc : cols.contains t.opId
      · simp only [hc, if_true]
        exact hnd.erase_eq_filter t.opId
      · simp only [hc, if_false]
        refine (List.filter_eq_self.mpr ?_).symm
        intro a ha
        have : ¬ (a = t.opId) := by
          intro hEq
          subst hEq
          exact hc (List.elem_iff.mpr ha)
        simpa [bne_iff_ne] using this
    have hnd' : (cols.filter fun d => d != t.opId).Nodup := hnd.filter _
    rw [hstep, hcols', ih _ hnd', List.filter_filter]
    apply List.filter_congr
    intro d _
    by_cases h1 : d = t.opId
    · subst h1
      simp
    · have h2 : (t.opId == d) = false := by
        simp only [beq_eq_false_iff_ne, ne_eq]
        exact fun hh => h1 hh.symm
      have h3 : (d != t.opId) = true := by
        simpa [bne_iff_ne] using h1
      simp [List.any_cons, h2, h3]

theorem Workflow.fpTasks_nil_copy (op : String) (ph : List WTask) :
    Workflow.fpTasks op ph [] = some [] := by
  cases ph <;> rfl

theorem Workflow.fpTasks_singleton (op : String) (ph : List WTask) :
    Workflow.fpTasks op ph [op] =
      some (if ph.any fun t => strContains op t.opId then [] else [op]) := by
  induction ph with
  | nil => rfl
  | cons t ts ih =>
    by_cases hc : strContains op t.opId
    · have hrem : Workflow.pyRemove op [op] = some [] := by
        simp [Workflow.pyRemove, List.erase_cons_head]
      simp [Workflow.fpTasks, hc, hrem, Workflow.fpTasks_nil_copy,
        List.any_cons]
    · simp [Workflow.fpTasks, hc, ih, List.any_cons]

theorem Workflow.fpPhases_nil_copy (op : String) (phs : List (List WTask)) :
    Workflow.fpPhases op phs [] = some [] := by
  cases phs <;> rfl

theorem Workflow.fpPhases_singleton (op : String) (phs : List (List WTask)) :
    Workflow.fpPhases op phs [op] =
      some (if phs.flatten.any fun t => strContains op t.opId then []
            else [op]) := by
  induction phs with
  | nil => rfl
  | cons ph rest ih =>
    by_cases hc : ph.any fun t => strContains op t.opId
    · simp [Workflow.fpPhases, Workflow.fpTasks_singleton, hc,
        Workflow.fpPhases_nil_copy, List.any_append]
    · simp [Workflow.fpPhases, Workflow.fpTasks_singleton, hc, ih,
        List.any_append]

theorem Workflow.findParents_short (phases : List (List WTask))
    (parents : List String) (idx : ℕ) (hp : parents.length ≤ 1) :
    Workflow.findParents phases parents idx =
      some (Workflow.specParentsAppear (phases.take idx).flatten parents) := by
  match parents, hp with
  | [], _ =>
    simp [Workflow.findParents, Workflow.fpOps, Workflow.specParentsAppear]
  | [p], _ =>
    simp only [Workflow.findParents, Workflow.fpOps,
      Workflow.fpPhases_singleton, Workflow.specParentsAppear, List.all_cons,
      List.all_nil, Bool.and_true]
    by_cases hc : (phases.take idx).flatten.any fun t => strContains p t.opId
    · simp [hc, Workflow.fpOps]
    · simp [hc, Workflow.fpOps]

theorem Workflow.depsFilter_isEmpty_eq_spec (pfx : List WTask) :
    ∀ deps : List String,
      ((deps.filter fun d => d != "base").filter
          fun d => !(pfx.any fun t => t.opId == d)).isEmpty =
        Workflow.specDepsProduced pfx deps := by
  intro deps
  rw [List.filter_filter]
  induction deps with
  | nil => rfl
  | cons d ds ih =>
    unfold Workflow.specDepsProduced at ih ⊢
    rw [List.filter_cons, List.all_cons]
    by_cases hb : d = "base"
    · subst hb
      simp [ih]
    · have hb2 : (d == "base") = false := by
        simpa using hb
      have hb3 : (d != "base") = true := by
        simpa [bne_iff_ne] using hb
      cases hA : pfx.any fun t => t.opId == d
      · simp [hb3, hA, hb2]
      · simp [hb3, hA, hb2, ih]

theorem Workflow.colsNeededAt_nil (deps : List String) (hnd : deps.Nodup) :
    (if deps.contains "base" then deps.erase "base" else deps) =
      Workflow.colsNeededAt deps [] := by
  have hbe : (if deps.contains "base" then deps.erase "base" else deps) =
      deps.filter fun d => d != "base" := by
    by_cases hc : deps.contains "base"
    · simp only [hc, if_true]
      exact hnd.erase_eq_filter "base"
    · simp only [hc, if_false]
      refine (List.filter_eq_self.mpr ?_).symm
      intro a ha
      have : ¬ (a = "base") := by
        intro hEq
        subst hEq
        exact hc (List.elem_iff.mpr ha)
      simpa [bne_iff_ne] using this
  rw [hbe]
  apply List.filter_congr
  intro a _
  simp [Workflow.colsNeededAt]

theorem Workflow.scanPhaseCols_colsNeededAt (deps : List String)
    (hnd : deps.Nodup) (pfxTasks : List WTask) (ph : List WTask) :
    Workflow.scanPhaseCols ph (Workflow.colsNeededAt deps pfxTasks) =
      Workflow.colsNeededAt deps (pfxTasks ++ ph) := by
  rw [Workflow.colsNeededAt, Workflow.colsNeededAt,
    Workflow.scanPhaseCols_eq_filter ph _ (hnd.filter _), List.filter_filter]
  apply List.filter_congr
  intro a _
  rw [List.any_append]
  cases h1 : pfxTasks.any fun t => t.opId == a <;>
    cases h2 : ph.any fun t => t.opId == a <;>
    simp [h1, h2]

theorem Workflow.colsNeededAt_isEmpty (deps : List String)
    (pfxTasks : List WTask) :
    (Workflow.colsNeededAt deps pfxTasks).isEmpty =
      Workflow.specDepsProduced pfxTasks deps := by
  rw [Workflow.colsNeededAt, ← List.filter_filter]
  exact Workflow.depsFilter_isEmpty_eq_spec pfxTasks deps

theorem Workflow.placeTaskAux_eq_amended (task : WTask)
    (hnd : task.deps.Nodup) (hp : task.parents.length ≤ 1) :
    ∀ (rest done : List (List WTask)),
      Workflow.placeTaskAux task done rest
          (Workflow.colsNeededAt task.deps done.flatten) =
        some (Workflow.specPlaceAmendedAux task done rest) := by
  intro rest
  induction rest with
  | nil =>
    intro done
    rfl
  | cons ph rest ih =>
    intro done
    have hscan := Workflow.scanPhaseCols_colsNeededAt task.deps hnd
      done.flatten ph
    have hEmpty := Workflow.colsNeededAt_isEmpty task.deps
      (done.flatten ++ ph)
    have hfp : Workflow.findParents (done ++ ph :: rest) task.parents
        done.length =
        some (Workflow.specParentsAppear done.flatten task.parents) := by
      rw [Workflow.findParents_short _ _ _ hp, List.take_left]
    have hflat : (done ++ [ph]).flatten = done.flatten ++ ph := by simp
    have hih := ih (done ++ [ph])
    rw [hflat] at hih
    simp only [Workflow.placeTaskAux, Workflow.specPlaceAmendedAux,
      hscan, hEmpty, hfp]
    cases hD : Workflow.specDepsProduced (done.flatten ++ ph) task.deps <;>
      cases hP : Workflow.specParentsAppear done.flatten task.parents <;>
      simp [hD, hP, hih]

/-- C2 amended: for every dependent task, `phase_creator` commits it to the
first phase index `idx` such that every named column dependency was
produced by a task in the phases `[0, idx]` — the scan of phase `idx`
itself counts, because `cols_needed` is reduced before the commit test —
and every declared parent operator appears in the strictly earlier phases
`[0, idx)`; if no existing phase qualifies, a new trailing phase holding
just that task is appended.  Stated for tasks with duplicate-free
dependency lists and at most one declared parent (every operator in the
source declares at most one required statistic), which keeps
`find_parents` from raising `ValueError`. -/
theorem phase_creator_commits_first_inclusive_phase
    (phases : List (List WTask)) (tasks : List WTask)
    (h : ∀ t ∈ tasks, t.deps.Nodup ∧ t.parents.length ≤ 1) :
    Workflow.phaseCreator phases tasks =
      some (tasks.foldl Workflow.specPlaceAmended phases) := by
  induction tasks generalizing phases with
  | nil => rfl
  | cons t ts ih =>
    have ht := h t (List.mem_cons_self t ts)
    have hstep : Workflow.placeTask phases t =
        some (Workflow.specPlaceAmended phases t) := by
      unfold Workflow.placeTask Workflow.specPlaceAmended
      rw [Workflow.colsNeededAt_nil t.deps ht.1]
      exact Workflow.placeTaskAux_eq_amended t ht.1 ht.2 phases []
    have hts : ∀ u ∈ ts, u.deps.Nodup ∧ u.parents.length ≤ 1 :=
      fun u hu => h u (List.mem_cons_of_mem t hu)
    rw [Workflow.phaseCreator, List.foldlM_cons, hstep, List.foldl_cons]
    exact ih (Workflow.specPlaceAmended phases t) hts

/-- Witness for the amended C2 at a concrete input: placing task `T`
(dependency `A`, no parents) against the single existing phase `[A]`
commits `T` into that same phase. -/
theorem phase_creator_commits_first_inclusive_phase_witness :
    (∀ t ∈ [WTask.mk "T" "g" ["A"] []],
        t.deps.Nodup ∧ t.parents.length ≤ 1) ∧
    Workflow.phaseCreator [[WTask.mk "A" "g" ["base"] []]]
        [WTask.mk "T" "g" ["A"] []] =
      some ([WTask.mk "T" "g" ["A"] []].foldl Workflow.specPlaceAmended
        [[WTask.mk "A" "g" ["base"] []]]) :=
  ⟨by decide,
    phase_creator_commits_first_inclusive_phase _ _ (by decide)⟩

